import Mathlib

/-!
Verification of the dirtycatcher podcast downloader (`dirtyget.py`,
`podcast_downloader.py`, `dirtycatcher/cli.py`) against its natural-language
specification.  The Python program is shallowly embedded: pure helpers become
Lean functions, the stateful parts (dedup set, filesystem, network) become
explicit state passing over an environment record, and exceptions become
`Except`.  `dirtyget.py` is the authoritative variant for all dedup-related
behaviour (the spec's §9 notes the two variants diverge and the claims cite
`dirtyget.py`).
-/

namespace Dirtyget

/-! ## Dictionaries

Python `dict`s with string keys (configparser sections, channel settings, tag
sets) are modelled as association lists.  `alistGet` is `d.get(k)` / `d[k]`,
`dictSet` is `d[k] = v` (replace in place if the key exists, append otherwise,
matching insertion-order semantics), and `dictUpdate` is `base.update(upd)`
written as the same per-key loop `dict.update` performs. -/

def alistGet {α : Type} : List (String × α) → String → Option α
  | [], _ => none
  | (k', v) :: rest, k => if k' = k then some v else alistGet rest k

abbrev Dict := List (String × String)

def dictSet : Dict → String → String → Dict
  | [], k, v => [(k, v)]
  | (k', v') :: rest, k, v =>
    if k' = k then (k', v) :: rest else (k', v') :: dictSet rest k v

def dictUpdate (base upd : Dict) : Dict :=
  upd.foldl (fun d kv => dictSet d kv.1 kv.2) base

theorem alistGet_dictSet (d : Dict) (k k' v : String) :
    alistGet (dictSet d k' v) k = if k' = k then some v else alistGet d k := by
  induction d with
  | nil => simp [dictSet, alistGet]
  | cons hd tl ih =>
    obtain ⟨a, b⟩ := hd
    by_cases hak' : a = k'
    · subst hak'
      by_cases hak : a = k <;> simp [dictSet, alistGet, hak]
    · by_cases hak : a = k
      · subst hak
        have : ¬ k' = a := fun h => hak' h.symm
        simp [dictSet, alistGet, hak', this]
      · simp [dictSet, alistGet, hak', hak, ih]

theorem alistGet_eq_none_of_not_mem {α : Type} (d : List (String × α)) (k : String)
    (h : k ∉ d.map Prod.fst) : alistGet d k = none := by
  induction d with
  | nil => rfl
  | cons hd tl ih =>
    obtain ⟨a, b⟩ := hd
    simp only [List.map_cons, List.mem_cons, not_or] at h
    have : ¬ a = k := fun hh => h.1 hh.symm
    simp [alistGet, this, ih h.2]

theorem alistGet_of_mem_nodup {α : Type} (d : List (String × α)) (k : String) (v : α)
    (hmem : (k, v) ∈ d) (hnd : (d.map Prod.fst).Nodup) : alistGet d k = some v := by
  induction d with
  | nil => cases hmem
  | cons hd tl ih =>
    obtain ⟨a, b⟩ := hd
    simp only [List.map_cons, List.nodup_cons] at hnd
    rcases List.mem_cons.mp hmem with heq | htl
    · cases heq; simp [alistGet]
    · have hak : ¬ a = k := by
        intro h; subst h
        exact hnd.1 (List.mem_map.mpr ⟨(a, v), htl, rfl⟩)
      simp [alistGet, hak, ih htl hnd.2]

theorem alistGet_dictUpdate_none (g : Dict) (s : Dict) (k : String)
    (hs : alistGet s k = none) :
    alistGet (dictUpdate g s) k = alistGet g k := by
  induction s generalizing g with
  | nil => rfl
  | cons hd tl ih =>
    obtain ⟨a, b⟩ := hd
    simp only [alistGet] at hs
    by_cases hak : a = k
    · simp [hak] at hs
    · simp only [hak, if_false] at hs
      show alistGet (dictUpdate (dictSet g a b) tl) k = _
      rw [ih (dictSet g a b) hs, alistGet_dictSet, if_neg hak]

theorem alistGet_dictUpdate_some (g : Dict) (s : Dict) (k v : String)
    (hnd : (s.map Prod.fst).Nodup) (hs : alistGet s k = some v) :
    alistGet (dictUpdate g s) k = some v := by
  induction s generalizing g with
  | nil => cases hs
  | cons hd tl ih =>
    obtain ⟨a, b⟩ := hd
    simp only [List.map_cons, List.nodup_cons] at hnd
    simp only [alistGet] at hs
    by_cases hak : a = k
    · subst hak
      have hbv : b = v := by simpa using hs
      subst hbv
      have htl : alistGet tl a = none :=
        alistGet_eq_none_of_not_mem tl a (by
          intro hmem; exact hnd.1 hmem)
      show alistGet (dictUpdate (dictSet g a b) tl) a = some b
      rw [alistGet_dictUpdate_none _ _ _ htl, alistGet_dictSet, if_pos rfl]
    · simp only [hak, if_false] at hs
      exact ih (dictSet g a b) hnd.2 hs

/-! ## Filename sanitization (C1)

`_generate_filename` cleans the episode title with
`re.sub(r'[^\w\-_\.]', '_', title)`.  The negated class keeps `\w`, `-`, `_`
and `.`; every other character becomes a single `_`, so the substitution is a
per-character map.  CPython's `\w` on a `str` pattern matches underscore and
every Unicode alphanumeric character; this embedding carries that table for
code points below U+0100 (ASCII plus the Latin-1 supplement), which covers
every character the theorems below inspect, and conservatively returns `false`
above that range. -/

def pyIsWordChar (c : Char) : Bool :=
  let n := c.toNat
  decide ((48 ≤ n ∧ n ≤ 57) ∨ (65 ≤ n ∧ n ≤ 90) ∨ (97 ≤ n ∧ n ≤ 122) ∨ n = 95 ∨
    n = 0xAA ∨ n = 0xB2 ∨ n = 0xB3 ∨ n = 0xB5 ∨ n = 0xB9 ∨
    (0xBC ≤ n ∧ n ≤ 0xBE) ∨
    (0xC0 ≤ n ∧ n ≤ 0xFF ∧ n ≠ 0xD7 ∧ n ≠ 0xF7))

/-- One step of `re.sub(r'[^\w\-_\.]', '_', title)`: a character matching the
negated class (i.e. not `\w`, not `-` (code 45), not `.` (code 46)) is
replaced by `_`; all others are kept. -/
def sanitizeChar (c : Char) : Char :=
  if pyIsWordChar c = true ∨ c.toNat = 45 ∨ c.toNat = 46 then c else '_'

/-- The whole substitution `re.sub(r'[^\w\-_\.]', '_', title)` from
`_generate_filename` (dirtyget.py line 211 / podcast_downloader.py line 164):
a single-character pattern, so the scan is a character-wise map. -/
def sanitizeTitle (t : String) : String :=
  String.mk (t.data.map sanitizeChar)

/-- The character class `[A-Za-z0-9_\-.]` exactly as the spec sentence for
claim C1 states it (a refinement-side definition, written from the spec's
words, to compare with the code's `\w`-based class). -/
def specAllowedChar (c : Char) : Bool :=
  let n := c.toNat
  decide ((65 ≤ n ∧ n ≤ 90) ∨ (97 ≤ n ∧ n ≤ 122) ∨ (48 ≤ n ∧ n ≤ 57) ∨
    n = 95 ∨ n = 45 ∨ n = 46)

theorem sanitizeChar_of_allowed (c : Char) (h : specAllowedChar c = true) :
    sanitizeChar c = c := by
  have hp : pyIsWordChar c = true ∨ c.toNat = 45 ∨ c.toNat = 46 := by
    simp only [specAllowedChar, decide_eq_true_eq] at h
    simp only [pyIsWordChar, decide_eq_true_eq]
    omega
  unfold sanitizeChar
  rw [if_pos hp]

theorem sanitizeChar_of_ascii_disallowed (c : Char) (h1 : c.toNat < 128)
    (h2 : specAllowedChar c = false) : sanitizeChar c = '_' := by
  have hp : ¬ (pyIsWordChar c = true ∨ c.toNat = 45 ∨ c.toNat = 46) := by
    simp only [specAllowedChar, decide_eq_false_iff_not] at h2
    simp only [pyIsWordChar, decide_eq_true_eq]
    omega
  unfold sanitizeChar
  rw [if_neg hp]

/-- C1 (counterexample): the claim says every character outside
`[A-Za-z0-9_\-.]` is mapped to `_`, but CPython's `\w` is Unicode-aware, so
the non-ASCII letter `é` — outside the claimed class — is kept unchanged by
the sanitizer instead of becoming `_`. -/
theorem sanitize_unicode_kept_cex :
    specAllowedChar 'é' = false ∧ sanitizeTitle "é" = "é" ∧ sanitizeTitle "é" ≠ "_" := by
  refine ⟨by decide, by decide, by decide⟩

/-- C1 (amended): sanitization is a 1:1 per-character map, so the sanitized
string always has exactly the input's length; every character inside
`[A-Za-z0-9_\-.]` is kept unchanged; every ASCII character outside that class
is mapped to `_`.  (Non-ASCII word characters — Unicode letters and digits —
are additionally kept, because the code's class is Python's Unicode-aware
`\w`, which is what the counterexample exhibits.) -/
theorem sanitize_charwise_amended (t : String) (i : Nat) (c : Char)
    (hc : t.data[i]? = some c) :
    (sanitizeTitle t).length = t.length ∧
    (specAllowedChar c = true → (sanitizeTitle t).data[i]? = some c) ∧
    (c.toNat < 128 → specAllowedChar c = false →
      (sanitizeTitle t).data[i]? = some '_') := by
  have hdata : (sanitizeTitle t).data = t.data.map sanitizeChar := rfl
  have hget : (sanitizeTitle t).data[i]? = some (sanitizeChar c) := by
    rw [hdata, List.getElem?_map, hc]; rfl
  refine ⟨?_, ?_, ?_⟩
  · show (t.data.map sanitizeChar).length = t.data.length
    exact List.length_map _ _
  · intro hall
    rw [hget, sanitizeChar_of_allowed c hall]
  · intro hascii hdis
    rw [hget, sanitizeChar_of_ascii_disallowed c hascii hdis]

/-- C1 (witness): the amended theorem evaluated at the title `"a!"`: length is
preserved, the allowed `'a'` is kept, the disallowed ASCII `'!'` becomes `'_'`. -/
theorem sanitize_charwise_amended_witness :
    (sanitizeTitle "a!").length = ("a!" : String).length ∧
    (sanitizeTitle "a!").data[0]? = some 'a' ∧
    (sanitizeTitle "a!").data[1]? = some '_' := by
  refine ⟨(sanitize_charwise_amended "a!" 0 'a' rfl).1,
    (sanitize_charwise_amended "a!" 0 'a' rfl).2.1 (by decide),
    (sanitize_charwise_amended "a!" 1 '!' rfl).2.2 (by decide) (by decide)⟩

/-! ## Episode descriptors and the RSS feed fetcher

`parse_rss_feed` (dirtyget.py lines 85-132) issues `requests.get(url,
timeout=30)`, calls `raise_for_status()`, parses the body with
`ET.fromstring`, collects `root.findall('.//item')`, slices the first
`max_episodes` of them, and builds one descriptor per item.  Both `requests`
exceptions (transport failures and the `HTTPError` from `raise_for_status`,
raised for statuses 400-599) and `ET.ParseError` are caught, logged, and
turned into an empty list.  The network and parser are modelled by a
`FetchResult` describing everything the code observes about the HTTP
exchange. -/

inductive Xml where
  | elem (tag : String) (attrs : Dict) (text : Option String) (children : List Xml)

def Xml.tag : Xml → String
  | .elem t _ _ _ => t

def Xml.attrs : Xml → Dict
  | .elem _ a _ _ => a

def Xml.text : Xml → Option String
  | .elem _ _ tx _ => tx

def Xml.children : Xml → List Xml
  | .elem _ _ _ cs => cs

mutual

/-- `element.findall('.//' + tag)`: every descendant (excluding the element
itself) whose tag matches, in document order. -/
def findallDesc (tag : String) : Xml → List Xml
  | .elem _ _ _ cs => findallDescList tag cs

def findallDescList (tag : String) : List Xml → List Xml
  | [] => []
  | c :: cs =>
    (if Xml.tag c = tag then [c] else []) ++ findallDesc tag c ++ findallDescList tag cs

end

structure Episode where
  title : String
  description : String
  pub_date : String
  link : String
  enclosure_url : Option String
  enclosure_type : Option String
  enclosure_length : Option String
deriving DecidableEq

/-- Python `str.strip()` with no argument: leading and trailing whitespace
removed. -/
def pyStrip (s : String) : String :=
  String.mk
    (((s.data.dropWhile Char.isWhitespace).reverse.dropWhile Char.isWhitespace).reverse)

/-- `_get_text(element, tag)`: text of the first direct child named `tag`,
stripped; `""` when the child is absent or its text is `None` or empty
(Python truthiness of `child.text`). -/
def get_text (element : Xml) (tag : String) : String :=
  match element.children.find? (fun c => Xml.tag c = tag) with
  | some child =>
    match child.text with
    | some tx => if tx = "" then "" else pyStrip tx
    | none => ""
  | none => ""

/-- Descriptor construction for one `item` element (dirtyget.py lines
104-123): the four text fields, then the enclosure's `url`/`type`/`length`
attributes when an `enclosure` child exists, `None` otherwise. -/
def episodeOfItem (item : Xml) : Episode :=
  let enc := item.children.find? (fun c => Xml.tag c = "enclosure")
  { title := get_text item "title"
    description := get_text item "description"
    pub_date := get_text item "pubDate"
    link := get_text item "link"
    enclosure_url := enc.bind (fun e => alistGet e.attrs "url")
    enclosure_type := enc.bind (fun e => alistGet e.attrs "type")
    enclosure_length := enc.bind (fun e => alistGet e.attrs "length") }

/-- Python slice `l[:n]` for a possibly negative `int` bound: a negative
bound counts from the end (`max 0 (len + n)` elements). -/
def pySliceTo {α : Type} (l : List α) (n : Int) : List α :=
  if 0 ≤ n then l.take n.toNat else l.take ((l.length : Int) + n).toNat

inductive XmlBody where
  | malformed
  | wellFormed (root : Xml)

inductive FetchResult where
  | transportError
  | response (status : Nat) (body : XmlBody)

inductive FeedError where
  | requestError
  | parseError
deriving DecidableEq

/-- Body of `parse_rss_feed` before its `except` clauses: the GET itself
(`requests.RequestException` on transport failure), `raise_for_status()`
(`HTTPError`, a `RequestException`, for 4xx/5xx statuses), `ET.fromstring`
(`ET.ParseError` on malformed XML), then the pure item extraction. -/
def parse_rss_feed_body (fetch : FetchResult) (max_episodes : Int) :
    Except FeedError (List Episode) :=
  match fetch with
  | .transportError => .error .requestError
  | .response status body =>
    if 400 ≤ status ∧ status < 600 then .error .requestError
    else
      match body with
      | .malformed => .error .parseError
      | .wellFormed root =>
        let items := findallDesc "item" root
        if items.isEmpty then .ok []
        else .ok ((pySliceTo items max_episodes).map episodeOfItem)

/-- `parse_rss_feed` with its `except requests.RequestException` and
`except ET.ParseError` handlers: both log and return `[]`, so the function
never raises to its caller. -/
def parse_rss_feed (fetch : FetchResult) (max_episodes : Int) : List Episode :=
  match parse_rss_feed_body fetch max_episodes with
  | .ok eps => eps
  | .error _ => []

/-! ## Filename generation

`_generate_filename` (dirtyget.py lines 200-218): a configured `filespec` is
returned literally; otherwise the sanitized title is combined with the channel
name and an extension taken from `urlparse(enclosure_url).path` via
`os.path.splitext`, defaulting to `.mp3` when empty.  The two stdlib helpers
are embedded following CPython's `urllib.parse.urlsplit` (scheme, then
`//netloc`, then fragment and query stripped) and `posixpath.splitext` (suffix
from the last dot of the basename unless only leading dots precede it). -/

def isSchemeChar (c : Char) : Bool :=
  c.isAlphanum || c = '+' || c = '-' || c = '.'

/-- Rest of the URL after a valid `scheme:`, when the characters before the
first colon are all scheme characters (CPython `urlsplit`). -/
def dropSchemeAux : List Char → Option (List Char)
  | [] => none
  | ':' :: rest => some rest
  | c :: rest => if isSchemeChar c then dropSchemeAux rest else none

def dropScheme (u : List Char) : List Char :=
  match u with
  | c :: _ => if c.isAlpha then (dropSchemeAux u).getD u else u
  | [] => u

/-- Strips a leading `//netloc`, which extends to the next `/`, `?` or `#`. -/
def dropNetloc (u : List Char) : List Char :=
  match u with
  | '/' :: '/' :: rest => rest.dropWhile (fun c => c ≠ '/' && c ≠ '?' && c ≠ '#')
  | _ => u

/-- `urlparse(url).path`: what remains after scheme and netloc, cut at the
first `#` (fragment) and `?` (query). -/
def urlparsePath (url : String) : List Char :=
  let u := dropNetloc (dropScheme url.data)
  (u.takeWhile (fun c => c ≠ '#')).takeWhile (fun c => c ≠ '?')

/-- Extension component of `os.path.splitext` on a POSIX path: the suffix
from the last dot of the basename, empty when the basename has no dot or
only leading dots before it (`.bashrc` has no extension). -/
def splitextExt (p : List Char) : List Char :=
  let base := (p.reverse.takeWhile (fun c => c ≠ '/')).reverse
  let revBase := base.reverse
  let extRev := revBase.takeWhile (fun c => c ≠ '.')
  if extRev.length = revBase.length then []
  else
    let stem := base.take (base.length - extRev.length - 1)
    if stem.all (fun c => c = '.') then []
    else '.' :: extRev.reverse

/-- `_generate_filename`: literal `filespec` when configured, otherwise
`f"{channel_name}_{title}{ext}"` with the sanitized title and the extension
derived from the enclosure URL (`.mp3` when the path has none).  The caller
only reaches this point with a present, non-empty enclosure URL, so the
`Option` is defaulted to `""` here. -/
def generate_filename (episode : Episode) (channel_name : String)
    (channel_config : Dict) : String :=
  match alistGet channel_config "filespec" with
  | some fs => fs
  | none =>
    let title := sanitizeTitle episode.title
    let path := urlparsePath (episode.enclosure_url.getD "")
    let ext0 := splitextExt path
    let ext : String := if ext0.isEmpty then ".mp3" else String.mk ext0
    channel_name ++ "_" ++ title ++ ext

/-! ## Dedup tracking and episode download

The dedup state pairs the in-memory set `self.downloaded_urls` (modelled as a
duplicate-free list; only membership is observable, Python sets are unordered)
with the lines of the tracking file `~/.dirtyget_downloaded_urls`.  The
environment answers the questions the code asks of the outside world: the
working directory, which paths exist, whether an enclosure GET succeeds
(transport plus `raise_for_status`), whether the file write succeeds, whether
appending to the tracking file succeeds, and whether
`mkdir(parents=True, exist_ok=True)` of a directory succeeds — that call
(dirtyget.py line 153) sits outside the `try` block beginning at line 169, so
its `OSError` propagates uncaught out of `download_episode`.  `fs_coherent`
records the filesystem fact the code relies on between lines 153 and 160:
when some entry `d/f` exists, the directory `d` exists, and
`mkdir(exist_ok=True)` of an existing directory does not raise.
`download_episode` returns its boolean result, the updated dedup state, the
trace of external actions it performed in program order, and — in `raised` —
the uncaught exception when the mkdir failed (the in-memory dedup set at
raise time survives on the downloader object; `ok` is meaningless on that
path since the Python function never returns). -/

structure DedupState where
  urls : List String
  file : List String
deriving DecidableEq

inductive OSErr where
  | mkdirFailed (path : String)
deriving DecidableEq

structure Env where
  cwd : String
  fileExists : String → Bool
  getOk : String → Bool
  writeOk : String → Bool
  urlFileWriteOk : Bool
  mkdirOk : String → Bool
  fs_coherent : ∀ d f, fileExists (d ++ "/" ++ f) = true → mkdirOk d = true

/-- `save_downloaded_url` (dirtyget.py lines 50-58): a URL already in the
in-memory set is ignored; a new URL is added to the set and then appended to
the tracking file, where an `IOError` is logged and swallowed — the in-memory
insertion stands either way. -/
def save_downloaded_url (env : Env) (st : DedupState) (url : String) : DedupState :=
  if url ∈ st.urls then st
  else
    { urls := st.urls ++ [url]
      file := if env.urlFileWriteOk then st.file ++ [url] else st.file }

inductive Effect where
  | httpGet (url : String)
  | statCheck (path : String)
  | mkdir (path : String)
  | writeFile (path : String)
  | tagFile (path : String)
  | appendPlaylist (playlist : String) (path : String)
deriving DecidableEq

def Effect.isHttpGet : Effect → Bool
  | .httpGet _ => true
  | _ => false

def Effect.isStatCheck : Effect → Bool
  | .statCheck _ => true
  | _ => false

structure DownloadResult where
  ok : Bool
  dedup : DedupState
  effects : List Effect
  raised : Option OSErr
deriving DecidableEq

/-- Python truthiness of `episode['enclosure_url']`: falsy when `None` or
the empty string. -/
def optStrTruthy : Option String → Bool
  | none => false
  | some s => !(s == "")

/-- Full destination path `Path(spool_dir) / filename` with
`spool_dir = channel_config.get('spool', os.getcwd())`. -/
def computedPath (env : Env) (episode : Episode) (channel_name : String)
    (channel_config : Dict) : String :=
  (alistGet channel_config "spool").getD env.cwd ++ "/" ++
    generate_filename episode channel_name channel_config

/-- `download_episode` (dirtyget.py lines 139-198), with its side effects
recorded in order: missing/empty enclosure URL returns `False`; a dedup-set
hit without `--force` returns `True` before any filesystem or network work;
then `download_dir.mkdir(parents=True, exist_ok=True)` runs outside any
handler, so its failure raises an uncaught `OSError` (the `raised` field);
otherwise the destination path is checked, an existing path without
`--force` records the URL and returns `True`; otherwise the enclosure is
fetched and written (either failure is caught, returning `False` and leaving
the dedup state alone), then the URL is recorded, tags are set, and the
playlist is appended when configured. -/
def download_episode (env : Env) (force_overwrite : Bool) (st : DedupState)
    (episode : Episode) (channel_name : String) (channel_config : Dict) :
    DownloadResult :=
  if optStrTruthy episode.enclosure_url = false then ⟨false, st, [], none⟩
  else
    let url := episode.enclosure_url.getD ""
    if force_overwrite = false ∧ url ∈ st.urls then ⟨true, st, [], none⟩
    else
      let spool_dir := (alistGet channel_config "spool").getD env.cwd
      if env.mkdirOk spool_dir = false then
        ⟨false, st, [Effect.mkdir spool_dir], some (OSErr.mkdirFailed spool_dir)⟩
      else
        let filepath := computedPath env episode channel_name channel_config
        let effs0 := [Effect.mkdir spool_dir, Effect.statCheck filepath]
        if env.fileExists filepath = true ∧ force_overwrite = false then
          ⟨true, save_downloaded_url env st url, effs0, none⟩
        else
          let effs1 := effs0 ++ [Effect.httpGet url]
          if env.getOk url = false then ⟨false, st, effs1, none⟩
          else
            let effs2 := effs1 ++ [Effect.writeFile filepath]
            if env.writeOk filepath = false then ⟨false, st, effs2, none⟩
            else
              let st2 := save_downloaded_url env st url
              let effs3 := effs2 ++ [Effect.tagFile filepath]
              match alistGet channel_config "playlist" with
              | some p => ⟨true, st2, effs3 ++ [Effect.appendPlaylist p filepath], none⟩
              | none => ⟨true, st2, effs3, none⟩

/-! ## Shared concrete inputs and branch lemmas for `download_episode` -/

def envA : Env :=
  { cwd := "/cwd", fileExists := fun _ => false, getOk := fun _ => false,
    writeOk := fun _ => false, urlFileWriteOk := true,
    mkdirOk := fun _ => true,
    fs_coherent := fun _ _ h => Bool.noConfusion h }

def epA : Episode :=
  { title := "Ep One", description := "", pub_date := "", link := "",
    enclosure_url := some "http://h/x.mp3", enclosure_type := none,
    enclosure_length := none }

theorem download_episode_dedup_hit (env : Env) (st : DedupState) (episode : Episode)
    (channel_name : String) (channel_config : Dict) (u : String)
    (hurl : episode.enclosure_url = some u) (hne : u ≠ "") (hmem : u ∈ st.urls) :
    download_episode env false st episode channel_name channel_config =
      ⟨true, st, [], none⟩ := by
  have ht : ¬ optStrTruthy episode.enclosure_url = false := by
    simp [optStrTruthy, hurl, hne]
  unfold download_episode
  rw [if_neg ht]
  have hcond : (false = false ∧ episode.enclosure_url.getD "" ∈ st.urls) := by
    rw [hurl]; exact ⟨rfl, hmem⟩
  rw [if_pos hcond]

theorem mem_save_downloaded_url (env : Env) (st : DedupState) (u url : String)
    (hmem : u ∈ st.urls) : u ∈ (save_downloaded_url env st url).urls := by
  unfold save_downloaded_url
  split
  · exact hmem
  · exact List.mem_append_left _ hmem

theorem mem_download_episode_dedup (env : Env) (force : Bool) (st : DedupState)
    (episode : Episode) (channel_name : String) (channel_config : Dict) (u : String)
    (hmem : u ∈ st.urls) :
    u ∈ (download_episode env force st episode channel_name channel_config).dedup.urls := by
  unfold download_episode
  dsimp only
  split
  · exact hmem
  · split
    · exact hmem
    · split
      · exact hmem
      · split
        · exact mem_save_downloaded_url env st u _ hmem
        · split
          · exact hmem
          · split
            · exact hmem
            · split
              · exact mem_save_downloaded_url env st u _ hmem
              · exact mem_save_downloaded_url env st u _ hmem

/-- C5: an enclosure URL already in the dedup set, without `--force`, makes
`download_episode` return `True` at once: the dedup state is untouched, the
effect trace is empty (so no HTTP GET is issued and no filesystem existence
check is performed), and nothing is raised. -/
theorem download_skips_dedup_hit (env : Env) (st : DedupState) (episode : Episode)
    (channel_name : String) (channel_config : Dict) (u : String)
    (hurl : episode.enclosure_url = some u) (hne : u ≠ "") (hmem : u ∈ st.urls) :
    download_episode env false st episode channel_name channel_config =
      ⟨true, st, [], none⟩ :=
  download_episode_dedup_hit env st episode channel_name channel_config u hurl hne hmem

/-- C5 (witness): the dedup-hit theorem evaluated at a concrete episode whose
URL is already tracked. -/
theorem download_skips_dedup_hit_witness :
    download_episode envA false ⟨["http://h/x.mp3"], ["http://h/x.mp3"]⟩ epA "ch" [] =
      ⟨true, ⟨["http://h/x.mp3"], ["http://h/x.mp3"]⟩, [], none⟩ :=
  download_skips_dedup_hit envA ⟨["http://h/x.mp3"], ["http://h/x.mp3"]⟩ epA "ch" []
    "http://h/x.mp3" rfl (by decide) (by decide)

/-- C6: when the computed destination path already exists and `--force` is
absent, `download_episode` returns `True`, never issues an HTTP GET (the
effect trace holds no `httpGet`), and afterwards the enclosure URL is in the
dedup set — freshly recorded by `save_downloaded_url` when it was not
already there. -/
theorem download_existing_file_records_url (env : Env) (st : DedupState)
    (episode : Episode) (channel_name : String) (channel_config : Dict) (u : String)
    (hurl : episode.enclosure_url = some u) (hne : u ≠ "")
    (hex : env.fileExists (computedPath env episode channel_name channel_config) = true) :
    (download_episode env false st episode channel_name channel_config).ok = true ∧
    (download_episode env false st episode channel_name channel_config).effects.all
      (fun e => ! e.isHttpGet) = true ∧
    u ∈ (download_episode env false st episode channel_name channel_config).dedup.urls := by
  by_cases hmem : u ∈ st.urls
  · rw [download_episode_dedup_hit env st episode channel_name channel_config u hurl hne hmem]
    exact ⟨rfl, rfl, hmem⟩
  · have ht : ¬ optStrTruthy episode.enclosure_url = false := by
      simp [optStrTruthy, hurl, hne]
    have hcond : ¬ (false = false ∧ episode.enclosure_url.getD "" ∈ st.urls) := by
      rw [hurl]; rintro ⟨-, hm⟩; exact hmem hm
    have hmkdir : env.mkdirOk ((alistGet channel_config "spool").getD env.cwd) = true :=
      env.fs_coherent ((alistGet channel_config "spool").getD env.cwd)
        (generate_filename episode channel_name channel_config) hex
    have hbranch :
        download_episode env false st episode channel_name channel_config =
          ⟨true, save_downloaded_url env st (episode.enclosure_url.getD ""),
            [Effect.mkdir ((alistGet channel_config "spool").getD env.cwd),
             Effect.statCheck (computedPath env episode channel_name channel_config)],
            none⟩ := by
      unfold download_episode
      rw [if_neg ht]
      dsimp only
      rw [if_neg hcond,
        if_neg (by simp [hmkdir] :
          ¬ env.mkdirOk ((alistGet channel_config "spool").getD env.cwd) = false),
        if_pos ⟨hex, rfl⟩]
    rw [hbranch]
    refine ⟨rfl, rfl, ?_⟩
    rw [hurl]
    show u ∈ (save_downloaded_url env st u).urls
    unfold save_downloaded_url
    rw [if_neg hmem]
    exact List.mem_append_right _ (List.mem_singleton.mpr rfl)

/-- C6 (witness): the existing-file theorem evaluated at a concrete state
where the destination path exists and the URL is not yet tracked. -/
theorem download_existing_file_records_url_witness :
    (download_episode
      { cwd := "/cwd", fileExists := fun _ => true, getOk := fun _ => false,
        writeOk := fun _ => false, urlFileWriteOk := true,
        mkdirOk := fun _ => true, fs_coherent := fun _ _ _ => rfl }
      false ⟨[], []⟩ epA "ch" []).ok = true ∧
    (download_episode
      { cwd := "/cwd", fileExists := fun _ => true, getOk := fun _ => false,
        writeOk := fun _ => false, urlFileWriteOk := true,
        mkdirOk := fun _ => true, fs_coherent := fun _ _ _ => rfl }
      false ⟨[], []⟩ epA "ch" []).effects.all (fun e => ! e.isHttpGet) = true ∧
    "http://h/x.mp3" ∈ (download_episode
      { cwd := "/cwd", fileExists := fun _ => true, getOk := fun _ => false,
        writeOk := fun _ => false, urlFileWriteOk := true,
        mkdirOk := fun _ => true, fs_coherent := fun _ _ _ => rfl }
      false ⟨[], []⟩ epA "ch" []).dedup.urls :=
  download_existing_file_records_url
    { cwd := "/cwd", fileExists := fun _ => true, getOk := fun _ => false,
      writeOk := fun _ => false, urlFileWriteOk := true,
      mkdirOk := fun _ => true, fs_coherent := fun _ _ _ => rfl }
    ⟨[], []⟩ epA "ch" [] "http://h/x.mp3" rfl (by decide) rfl

/-- C9: the dedup set is append-only.  Any URL in the set stays in it through
`save_downloaded_url` and through a whole `download_episode` call; recording
an already-present URL changes nothing; recording a new URL appends it to the
in-memory set and, when the tracking-file write succeeds, appends exactly one
line to the file; a failed file write leaves the file alone but does not roll
back the in-memory insertion. -/
theorem dedup_append_only (env : Env) (st : DedupState) (u url : String)
    (force : Bool) (ep : Episode) (cn : String) (cc : Dict) (hmem : u ∈ st.urls) :
    u ∈ (save_downloaded_url env st url).urls ∧
    (url ∈ st.urls → save_downloaded_url env st url = st) ∧
    (url ∉ st.urls →
      (save_downloaded_url env st url).urls = st.urls ++ [url] ∧
      (env.urlFileWriteOk = true → (save_downloaded_url env st url).file = st.file ++ [url]) ∧
      (env.urlFileWriteOk = false →
        (save_downloaded_url env st url).file = st.file ∧
        url ∈ (save_downloaded_url env st url).urls)) ∧
    u ∈ (download_episode env force st ep cn cc).dedup.urls := by
  refine ⟨mem_save_downloaded_url env st u url hmem, ?_, ?_,
    mem_download_episode_dedup env force st ep cn cc u hmem⟩
  · intro hin
    unfold save_downloaded_url
    rw [if_pos hin]
  · intro hout
    unfold save_downloaded_url
    rw [if_neg hout]
    refine ⟨rfl, ?_, ?_⟩
    · intro hw; simp [hw]
    · intro hw
      refine ⟨by simp [hw], ?_⟩
      exact List.mem_append_right _ (List.mem_singleton.mpr rfl)

/-- C9 (witness): the append-only theorem evaluated at a concrete state with
one tracked URL, exercising both the new-URL and the already-present cases. -/
theorem dedup_append_only_witness :
    "a" ∈ (save_downloaded_url envA ⟨["a"], ["a"]⟩ "b").urls ∧
    (save_downloaded_url envA ⟨["a"], ["a"]⟩ "b").urls = ["a"] ++ ["b"] ∧
    (save_downloaded_url envA ⟨["a"], ["a"]⟩ "b").file = ["a"] ++ ["b"] ∧
    save_downloaded_url envA ⟨["a"], ["a"]⟩ "a" = ⟨["a"], ["a"]⟩ ∧
    "a" ∈ (download_episode envA false ⟨["a"], ["a"]⟩ epA "ch" []).dedup.urls := by
  have h := dedup_append_only envA ⟨["a"], ["a"]⟩ "a" "b" false epA "ch" [] (by decide)
  have h2 := dedup_append_only envA ⟨["a"], ["a"]⟩ "a" "a" false epA "ch" [] (by decide)
  have hnot : "b" ∉ (⟨["a"], ["a"]⟩ : DedupState).urls := by decide
  exact ⟨h.1, (h.2.2.1 hnot).1, (h.2.2.1 hnot).2.1 rfl, h2.2.1 (by decide), h.2.2.2⟩

/-- C10: a feed item whose `enclosure` element lacks a `url` attribute yields
a descriptor with an absent enclosure URL (its `type` and `length` fields are
independently whatever attributes the element carries), and downloading that
descriptor returns `False` with no effects, exactly as if no enclosure
existed. -/
theorem enclosure_without_url_absent (item e : Xml) (env : Env) (force : Bool)
    (st : DedupState) (cn : String) (cc : Dict)
    (he : item.children.find? (fun c => Xml.tag c = "enclosure") = some e)
    (hu : alistGet e.attrs "url" = none) :
    (episodeOfItem item).enclosure_url = none ∧
    (episodeOfItem item).enclosure_type = alistGet e.attrs "type" ∧
    (episodeOfItem item).enclosure_length = alistGet e.attrs "length" ∧
    download_episode env force st (episodeOfItem item) cn cc = ⟨false, st, [], none⟩ := by
  have h1 : (episodeOfItem item).enclosure_url = none := by
    simp [episodeOfItem, he, hu]
  refine ⟨h1, by simp [episodeOfItem, he], by simp [episodeOfItem, he], ?_⟩
  unfold download_episode
  rw [h1]
  have h2 : optStrTruthy none = false := rfl
  rw [if_pos h2]

def itemA : Xml :=
  .elem "item" [] none
    [.elem "title" [] (some "T") [],
     .elem "enclosure" [("type", "audio/mpeg")] none []]

/-- C10 (witness): the missing-`url`-attribute theorem evaluated at a concrete
item whose enclosure carries only a `type` attribute. -/
theorem enclosure_without_url_absent_witness :
    (episodeOfItem itemA).enclosure_url = none ∧
    (episodeOfItem itemA).enclosure_type = alistGet [("type", "audio/mpeg")] "type" ∧
    (episodeOfItem itemA).enclosure_length = alistGet [("type", "audio/mpeg")] "length" ∧
    download_episode envA false ⟨[], []⟩ (episodeOfItem itemA) "ch" [] =
      ⟨false, ⟨[], []⟩, [], none⟩ :=
  enclosure_without_url_absent itemA
    (.elem "enclosure" [("type", "audio/mpeg")] none []) envA false ⟨[], []⟩ "ch" []
    rfl rfl

/-! ## Metadata tagging

`_set_metadata_tags` (dirtyget.py lines 220-291).  `MutagenFile` yields
`None` for an unreadable file (modelled by `readable = false`): log and
return, never saving.  Otherwise the code branches on
`filepath.suffix.lower() == '.mp3'`.  In both branches a missing tag
container is created empty (`add_tags`), title and artist are set only when
the key is absent (artist defaulting to `artist_tag` or
`channel_name.title()`), album is set whenever `album_tag` is configured,
genre whenever `genre_tag` (or else `genre`) is configured, and — mp3 branch
only — comment whenever `comment_tag` is configured.  `audio_file.save()` is
then called unconditionally at the end of either branch.  Tag sets are
modelled as `Dict`s keyed by the literal frame/field names the source uses. -/

def pyTitleAux : Bool → List Char → List Char
  | _, [] => []
  | prevCased, c :: cs =>
    (if prevCased then c.toLower else c.toUpper) :: pyTitleAux c.isAlpha cs

/-- Python `str.title()` (ASCII casing): a letter is uppercased after a
non-letter and lowercased after a letter. -/
def pyTitle (s : String) : String := String.mk (pyTitleAux false s.data)

/-- One `if KEY not in tags: tags[KEY] = value` block. -/
def setIfAbsent (d : Dict) (k v : String) : Dict :=
  if (alistGet d k).isSome then d else dictSet d k v

/-- One `if ck in channel_config: tags[k] = channel_config[ck]` block. -/
def setIfConfigured (d : Dict) (cc : Dict) (ck k : String) : Dict :=
  match alistGet cc ck with
  | some v => dictSet d k v
  | none => d

/-- The genre block: `genre_tag` wins, else `genre`, else nothing. -/
def setGenre (d : Dict) (cc : Dict) (k : String) : Dict :=
  match alistGet cc "genre_tag" with
  | some v => dictSet d k v
  | none =>
    match alistGet cc "genre" with
    | some v => dictSet d k v
    | none => d

structure MetaResult where
  tags : Option Dict
  saved : Bool
deriving DecidableEq

/-- `_set_metadata_tags(filepath, episode, channel_name, channel_config)`:
the first argument is whether `MutagenFile` could read the file, the second
whether the path's suffix is `.mp3`. -/
def set_metadata_tags : Bool → Bool → Option Dict → Episode → String → Dict → MetaResult
  | false, _, tags0, _, _, _ => ⟨tags0, false⟩
  | true, true, tags0, episode, channel_name, channel_config =>
    let t0 := tags0.getD []
    let t1 := setIfAbsent t0 "TIT2" episode.title
    let t2 := setIfAbsent t1 "TPE1"
      ((alistGet channel_config "artist_tag").getD (pyTitle channel_name))
    let t3 := setIfConfigured t2 channel_config "album_tag" "TALB"
    let t4 := setGenre t3 channel_config "TCON"
    let t5 := setIfConfigured t4 channel_config "comment_tag" "COMM"
    ⟨some t5, true⟩
  | true, false, tags0, episode, channel_name, channel_config =>
    let t0 := tags0.getD []
    let t1 := setIfAbsent t0 "TITLE" episode.title
    let t2 := setIfAbsent t1 "ARTIST"
      ((alistGet channel_config "artist_tag").getD (pyTitle channel_name))
    let t3 := setIfConfigured t2 channel_config "album_tag" "ALBUM"
    let t4 := setGenre t3 channel_config "GENRE"
    ⟨some t4, true⟩

theorem alistGet_setIfAbsent_preserved (d : Dict) (k' v k w : String)
    (h : alistGet d k = some w) : alistGet (setIfAbsent d k' v) k = some w := by
  unfold setIfAbsent
  by_cases hp : (alistGet d k').isSome = true
  · rw [if_pos hp]; exact h
  · rw [if_neg hp, alistGet_dictSet]
    by_cases hkk : k' = k
    · subst hkk; rw [h] at hp; simp at hp
    · rw [if_neg hkk]; exact h

theorem alistGet_setIfConfigured_ne (d cc : Dict) (ck k' k : String) (hne : k' ≠ k) :
    alistGet (setIfConfigured d cc ck k') k = alistGet d k := by
  unfold setIfConfigured
  split
  · rw [alistGet_dictSet, if_neg hne]
  · rfl

theorem alistGet_setGenre_ne (d cc : Dict) (k' k : String) (hne : k' ≠ k) :
    alistGet (setGenre d cc k') k = alistGet d k := by
  unfold setGenre
  split
  · rw [alistGet_dictSet, if_neg hne]
  · split
    · rw [alistGet_dictSet, if_neg hne]
    · rfl

/-- C3 (counterexample): the claim covers album/genre/comment too, but a
pre-existing non-empty `TALB` value is overwritten as soon as `album_tag` is
configured — only title and artist are guarded by an absence check. -/
theorem tagger_overwrites_album_cex :
    ("Old" : String) ≠ "" ∧
    alistGet [("TALB", "Old")] "TALB" = some "Old" ∧
    alistGet (((set_metadata_tags true true (some [("TALB", "Old")]) epA "ch"
      [("album_tag", "New")]).tags).getD []) "TALB" = some "New" := by decide

/-- C3 (amended): a pre-existing title or artist value (the four keys the two
container branches use) is never overwritten by the tagger, whatever the
channel configuration; album, genre and comment, in contrast, are rewritten
whenever the corresponding setting is configured, as the counterexample
shows. -/
theorem tagger_preserves_title_artist (isMp3 : Bool) (tags0 : Option Dict)
    (episode : Episode) (channel_name : String) (channel_config : Dict) (k v : String)
    (hk : k = "TIT2" ∨ k = "TPE1" ∨ k = "TITLE" ∨ k = "ARTIST")
    (hv : alistGet (tags0.getD []) k = some v) :
    alistGet (((set_metadata_tags true isMp3 tags0 episode channel_name
      channel_config).tags).getD []) k = some v := by
  have hne_talb : k ≠ "TALB" := by rcases hk with h | h | h | h <;> subst h <;> decide
  have hne_tcon : k ≠ "TCON" := by rcases hk with h | h | h | h <;> subst h <;> decide
  have hne_comm : k ≠ "COMM" := by rcases hk with h | h | h | h <;> subst h <;> decide
  have hne_album : k ≠ "ALBUM" := by rcases hk with h | h | h | h <;> subst h <;> decide
  have hne_genre : k ≠ "GENRE" := by rcases hk with h | h | h | h <;> subst h <;> decide
  cases isMp3 with
  | true =>
    show alistGet (setIfConfigured (setGenre (setIfConfigured
      (setIfAbsent (setIfAbsent (tags0.getD []) "TIT2" episode.title) "TPE1"
        ((alistGet channel_config "artist_tag").getD (pyTitle channel_name)))
      channel_config "album_tag" "TALB") channel_config "TCON")
      channel_config "comment_tag" "COMM") k = some v
    rw [alistGet_setIfConfigured_ne _ _ _ _ _ (Ne.symm hne_comm),
      alistGet_setGenre_ne _ _ _ _ (Ne.symm hne_tcon),
      alistGet_setIfConfigured_ne _ _ _ _ _ (Ne.symm hne_talb)]
    exact alistGet_setIfAbsent_preserved _ _ _ _ _
      (alistGet_setIfAbsent_preserved _ _ _ _ _ hv)
  | false =>
    show alistGet (setGenre (setIfConfigured
      (setIfAbsent (setIfAbsent (tags0.getD []) "TITLE" episode.title) "ARTIST"
        ((alistGet channel_config "artist_tag").getD (pyTitle channel_name)))
      channel_config "album_tag" "ALBUM") channel_config "GENRE") k = some v
    rw [alistGet_setGenre_ne _ _ _ _ (Ne.symm hne_genre),
      alistGet_setIfConfigured_ne _ _ _ _ _ (Ne.symm hne_album)]
    exact alistGet_setIfAbsent_preserved _ _ _ _ _
      (alistGet_setIfAbsent_preserved _ _ _ _ _ hv)

/-- C3 (witness): the preservation theorem evaluated on an mp3 whose `TIT2`
frame already holds `"Keep"` under a configuration that sets `album_tag`. -/
theorem tagger_preserves_title_artist_witness :
    alistGet (((set_metadata_tags true true (some [("TIT2", "Keep")]) epA "ch"
      [("album_tag", "New")]).tags).getD []) "TIT2" = some "Keep" :=
  tagger_preserves_title_artist true (some [("TIT2", "Keep")]) epA "ch"
    [("album_tag", "New")] "TIT2" "Keep" (Or.inl rfl) (by decide)

/-- C4 (counterexample): an mp3 that already carries title and artist frames,
tagged under a configuration with no album/genre/comment settings, has no
field modified — yet `save()` is still invoked, refuting "persists only if
the tag set was actually touched". -/
theorem tagger_saves_without_modification_cex :
    (set_metadata_tags true true (some [("TIT2", "t"), ("TPE1", "a")]) epA "ch" []).tags
      = some [("TIT2", "t"), ("TPE1", "a")] ∧
    (set_metadata_tags true true (some [("TIT2", "t"), ("TPE1", "a")]) epA "ch" []).saved
      = true := by decide

/-- C4 (amended): `_set_metadata_tags` calls `save()` exactly when the audio
file was readable — unconditionally at the end of either container branch,
whether or not any tag field was modified; an unreadable file is returned
untouched and unsaved. -/
theorem tagger_saved_iff_readable (readable isMp3 : Bool) (tags0 : Option Dict)
    (episode : Episode) (channel_name : String) (channel_config : Dict) :
    (set_metadata_tags readable isMp3 tags0 episode channel_name
      channel_config).saved = readable ∧
    (set_metadata_tags false isMp3 tags0 episode channel_name
      channel_config).tags = tags0 := by
  refine ⟨?_, rfl⟩
  cases readable <;> cases isMp3 <;> rfl

/-! ## Configuration loading

`get_channels` (dirtyget.py lines 60-83).  The parsed configparser file is a
list of sections in file order, each a name with its key/value `Dict`
(interpolation disabled, key case preserved; configparser rejects duplicate
section names and duplicate keys within a section, whence the `Nodup`
hypotheses below).  For every non-`*` section the effective settings start
from a copy of the `[*]` section (empty when absent) and are overlaid by the
section's own pairs via `dict.update`; a merged channel lacking `url` is
dropped with a warning. -/

abbrev ConfigFile := List (String × Dict)

def globalConfigOf (cfg : ConfigFile) : Dict := (alistGet cfg "*").getD []

def get_channels (cfg : ConfigFile) : List (String × Dict) :=
  cfg.filterMap (fun sec =>
    if sec.1 = "*" then none
    else
      let channel_config := dictUpdate (globalConfigOf cfg) sec.2
      if (alistGet channel_config "url").isSome then some (sec.1, channel_config)
      else none)

/-- C7: every channel produced by `get_channels` carries the wildcard
section's settings overlaid by its own section's settings — a key present in
the channel's section takes the channel value, and a key absent there but
present in the `[*]` section takes the wildcard value. -/
theorem channel_settings_layering (cfg : ConfigFile) (name : String) (eff : Dict)
    (k v : String)
    (hmem : (name, eff) ∈ get_channels cfg)
    (hnames : (cfg.map Prod.fst).Nodup)
    (hkeys : ∀ p ∈ cfg, ((p.2.map Prod.fst).Nodup)) :
    (alistGet ((alistGet cfg name).getD []) k = some v → alistGet eff k = some v) ∧
    (alistGet ((alistGet cfg name).getD []) k = none →
      alistGet (globalConfigOf cfg) k = some v → alistGet eff k = some v) := by
  obtain ⟨⟨sname, sdict⟩, hsec, hf⟩ := List.mem_filterMap.mp hmem
  dsimp only at hf
  by_cases hstar : sname = "*"
  · rw [if_pos hstar] at hf; cases hf
  · rw [if_neg hstar] at hf
    by_cases hurl : (alistGet (dictUpdate (globalConfigOf cfg) sdict) "url").isSome = true
    · rw [if_pos hurl] at hf
      have hpair := Option.some.inj hf
      have hn : sname = name := congrArg Prod.fst hpair
      have he : dictUpdate (globalConfigOf cfg) sdict = eff := congrArg Prod.snd hpair
      subst hn
      have hlook : alistGet cfg sname = some sdict :=
        alistGet_of_mem_nodup cfg sname sdict hsec hnames
      rw [hlook]
      refine ⟨?_, ?_⟩
      · intro hs
        rw [← he]
        exact alistGet_dictUpdate_some _ _ _ _ (hkeys (sname, sdict) hsec) hs
      · intro hs hg
        simp only [Option.getD_some] at hs
        rw [← he, alistGet_dictUpdate_none _ _ _ hs]
        exact hg
    · rw [if_neg hurl] at hf; cases hf

def cfgA : ConfigFile :=
  [("*", [("a", "g1"), ("b", "g2")]), ("ch", [("b", "c2"), ("url", "u")])]

/-- C7 (witness): the layering theorem on a concrete file: channel key `b`
wins over the wildcard (`c2`), wildcard-only key `a` flows through (`g1`). -/
theorem channel_settings_layering_witness :
    alistGet [("a", "g1"), ("b", "c2"), ("url", "u")] "b" = some "c2" ∧
    alistGet [("a", "g1"), ("b", "c2"), ("url", "u")] "a" = some "g1" := by
  have h1 := channel_settings_layering cfgA "ch" [("a", "g1"), ("b", "c2"), ("url", "u")]
    "b" "c2" (by decide) (by decide) (by decide)
  have h2 := channel_settings_layering cfgA "ch" [("a", "g1"), ("b", "c2"), ("url", "u")]
    "a" "g1" (by decide) (by decide) (by decide)
  exact ⟨h1.1 (by decide), h2.2 (by decide) (by decide)⟩

/-- C8: the feed fetcher maps every failure to an empty episode list instead
of raising: a transport error, any 4xx/5xx status (whatever the body), and a
malformed body at a non-raising status all yield `[]`.  Totality of
`parse_rss_feed : FetchResult → Int → List Episode` is the embedding of
"never raises to its caller": both `except` clauses of the source return `[]`. -/
theorem feed_errors_yield_empty (me : Int) (status goodStatus : Nat) (body : XmlBody)
    (hbad : 400 ≤ status ∧ status < 600)
    (hgood : ¬ (400 ≤ goodStatus ∧ goodStatus < 600)) :
    parse_rss_feed FetchResult.transportError me = [] ∧
    parse_rss_feed (FetchResult.response status body) me = [] ∧
    parse_rss_feed (FetchResult.response goodStatus XmlBody.malformed) me = [] := by
  refine ⟨rfl, ?_, ?_⟩
  · simp [parse_rss_feed, parse_rss_feed_body, hbad.1, hbad.2]
  · simp [parse_rss_feed, parse_rss_feed_body, hgood]

/-- C8 (witness): the error cases evaluated concretely — the spec's HTTP 404
scenario with a well-formed body, a transport failure, and malformed XML at
status 200, each yielding the empty episode list. -/
theorem feed_errors_yield_empty_witness :
    parse_rss_feed FetchResult.transportError 1 = [] ∧
    parse_rss_feed
      (FetchResult.response 404 (XmlBody.wellFormed (Xml.elem "rss" [] none []))) 1 = [] ∧
    parse_rss_feed (FetchResult.response 200 XmlBody.malformed) 1 = [] :=
  feed_errors_yield_empty 1 404 200 (XmlBody.wellFormed (Xml.elem "rss" [] none []))
    (by decide) (by decide)

/-! ## The orchestrator

`download_all_latest` (dirtyget.py lines 301-329) raises `FileNotFoundError`
when the configuration file is missing, lets `config.read` raise uncaught
`configparser` errors on a malformed existing file, loads the dedup set, and
loops over the channels.  Inside the loop `max_episodes =
int(channel_config.get('max_episodes', 1))` is **not** wrapped in any
handler: `int()` of an unparsable string raises `ValueError`, which
propagates to the process level, and so does the `OSError` of the spool
`mkdir` inside `download_episode`.  Feed failures yield `[]` (skip channel)
and the handled failures of `download_episode` just return `False`, so those
continue the loop.  Python's `int(str)` strips whitespace and accepts an
optional sign, ASCII digits and single underscores between digits (Unicode
digit forms are not modelled). -/

def pyIntRest : Nat → List Char → Option Nat
  | acc, [] => some acc
  | acc, '_' :: c :: cs =>
    if c.isDigit then pyIntRest (acc * 10 + (c.toNat - 48)) cs else none
  | acc, c :: cs =>
    if c.isDigit then pyIntRest (acc * 10 + (c.toNat - 48)) cs else none

def pyIntCore : List Char → Option Nat
  | [] => none
  | c :: cs => if c.isDigit then pyIntRest (c.toNat - 48) cs else none

def pyIntParse (s : String) : Option Int :=
  match (pyStrip s).data with
  | '+' :: rest => (pyIntCore rest).map (fun n => (n : Int))
  | '-' :: rest => (pyIntCore rest).map (fun n => -(n : Int))
  | rest => (pyIntCore rest).map (fun n => (n : Int))

inductive RunError where
  | configNotFound
  | configParseError
  | valueError (setting : String)
  | osError (e : OSErr)
deriving DecidableEq

/-- `int(channel_config.get('max_episodes', 1))`: the integer default needs
no parsing; a present setting string is parsed by `int()`, whose `ValueError`
is uncaught. -/
def maxEpisodesOf (cc : Dict) : Except RunError Int :=
  match alistGet cc "max_episodes" with
  | none => .ok 1
  | some s =>
    match pyIntParse s with
    | some n => .ok n
    | none => .error (.valueError s)

structure RunEnv where
  configExists : Bool
  configParses : Bool
  cfg : ConfigFile
  dedupFileExists : Bool
  dedupFileReadOk : Bool
  dedupFileLines : List String
  fetch : String → FetchResult
  denv : Env

/-- `load_downloaded_urls` (dirtyget.py lines 38-48): stripped non-empty
lines of the tracking file as a set; a missing or unreadable file yields the
empty set. -/
def load_downloaded_urls (env : RunEnv) : List String :=
  if env.dedupFileExists = true then
    if env.dedupFileReadOk = true then
      ((env.dedupFileLines.map pyStrip).filter (fun l => !(l == ""))).dedup
    else []
  else []

/-- The per-channel episode loop: each selected episode is downloaded in
feed order, the dedup state threads through, the boolean result is ignored —
but an uncaught exception escaping `download_episode` (the mkdir path)
propagates and aborts the whole run. -/
def runEpisodes (env : RunEnv) (force : Bool) (name : String) (cc : Dict) :
    List Episode → DedupState → Except RunError DedupState
  | [], st => .ok st
  | ep :: rest, st =>
    let r := download_episode env.denv force st ep name cc
    match r.raised with
    | some e => .error (.osError e)
    | none => runEpisodes env force name cc rest r.dedup

/-- One iteration of the channel loop: parse `max_episodes` (may raise),
fetch and parse the feed (never raises; empty feeds just lead to an empty
episode loop), then run the episode loop. -/
def processChannel (env : RunEnv) (force : Bool) (st : DedupState)
    (name : String) (cc : Dict) : Except RunError DedupState :=
  match maxEpisodesOf cc with
  | .error e => .error e
  | .ok me =>
    runEpisodes env force name cc
      (parse_rss_feed (env.fetch ((alistGet cc "url").getD "")) me) st

/-- The channel loop itself: an uncaught exception in an iteration aborts the
run; otherwise the updated dedup state flows to the next channel. -/
def runChannels (env : RunEnv) (force : Bool) :
    List (String × Dict) → DedupState → Except RunError DedupState
  | [], st => .ok st
  | (name, cc) :: rest, st =>
    match processChannel env force st name cc with
    | .error e => .error e
    | .ok st' => runChannels env force rest st'

/-- `download_all_latest`: a missing configuration file raises
`FileNotFoundError`; an existing but malformed configuration file makes
`self.config.read` (dirtyget.py line 36) raise an uncaught
`configparser.Error` (duplicate section or option, missing section header) —
`configParses` tells whether that parse succeeds, and `cfg` is its content
when it does.  Otherwise load state, compute the channels and run the loop. -/
def download_all_latest (env : RunEnv) (force : Bool) : Except RunError DedupState :=
  if env.configExists = false then .error .configNotFound
  else if env.configParses = false then .error .configParseError
  else
    runChannels env force (get_channels env.cfg)
      ⟨load_downloaded_urls env, env.dedupFileLines⟩

def isOkE {ε α : Type} : Except ε α → Bool
  | .ok _ => true
  | .error _ => false

def cexEnvC2 : RunEnv :=
  { configExists := true, configParses := true
    cfg := [("ch", [("url", "http://x/feed"), ("max_episodes", "one")])]
    dedupFileExists := false, dedupFileReadOk := true, dedupFileLines := []
    fetch := fun _ => FetchResult.transportError
    denv := envA }

/-- C2 (counterexample): with an existing configuration file whose channel
sets `max_episodes = one`, the run aborts with the uncaught `ValueError`
from `int("one")` — a process-level failure beyond the missing-config case
the claim allows. -/
theorem run_unparsable_max_episodes_cex :
    download_all_latest cexEnvC2 false = Except.error (RunError.valueError "one") := by
  rfl

theorem download_episode_no_raise (env : Env) (force : Bool) (st : DedupState)
    (episode : Episode) (cn : String) (cc : Dict)
    (hmk : ∀ d, env.mkdirOk d = true) :
    (download_episode env force st episode cn cc).raised = none := by
  unfold download_episode
  dsimp only
  split
  · rfl
  · split
    · rfl
    · split
      · next h => simp [hmk] at h
      · split
        · rfl
        · split
          · rfl
          · split
            · rfl
            · split <;> rfl

theorem runEpisodes_ok (env : RunEnv) (force : Bool) (name : String) (cc : Dict)
    (hmk : ∀ d, env.denv.mkdirOk d = true) :
    ∀ (eps : List Episode) (st : DedupState),
      isOkE (runEpisodes env force name cc eps st) = true := by
  intro eps
  induction eps with
  | nil => intro st; rfl
  | cons ep rest ih =>
    intro st
    show isOkE (match (download_episode env.denv force st ep name cc).raised with
      | some e => Except.error (RunError.osError e)
      | none => runEpisodes env force name cc rest
          (download_episode env.denv force st ep name cc).dedup) = true
    rw [download_episode_no_raise env.denv force st ep name cc hmk]
    exact ih _

theorem runChannels_ok (env : RunEnv) (force : Bool)
    (hmk : ∀ d, env.denv.mkdirOk d = true) :
    ∀ (l : List (String × Dict)) (st : DedupState),
      (∀ p ∈ l, ∃ n, maxEpisodesOf p.2 = Except.ok n) →
      isOkE (runChannels env force l st) = true := by
  intro l
  induction l with
  | nil => intro st _; rfl
  | cons hd tl ih =>
    intro st h
    obtain ⟨n, hn⟩ := h hd (List.mem_cons_self hd tl)
    obtain ⟨name, cc⟩ := hd
    show isOkE (match processChannel env force st name cc with
      | .error e => .error e
      | .ok st' => runChannels env force tl st') = true
    have hproc : processChannel env force st name cc =
        runEpisodes env force name cc
          (parse_rss_feed (env.fetch ((alistGet cc "url").getD "")) n) st := by
      unfold processChannel
      rw [hn]
    rw [hproc]
    cases hre : runEpisodes env force name cc
        (parse_rss_feed (env.fetch ((alistGet cc "url").getD "")) n) st with
    | error e =>
      have hok := runEpisodes_ok env force name cc hmk
        (parse_rss_feed (env.fetch ((alistGet cc "url").getD "")) n) st
      rw [hre] at hok
      simp [isOkE] at hok
    | ok st' =>
      exact ih st' (fun p hp => h p (List.mem_cons_of_mem _ hp))

/-- C2 (amended): the process-level failures are not limited to a missing
configuration file — an existing but malformed configuration file
(uncaught `configparser` errors from `config.read`), an unparsable
`max_episodes` setting (uncaught `ValueError` from `int()`), and a spool
directory that cannot be created (`Path.mkdir` at dirtyget.py line 153 sits
outside the `try`, so its `OSError` is uncaught) all abort the run.  When
the configuration file exists and parses, every processed channel's
`max_episodes` setting parses as an integer, and the spool directories can
be created, the run completes normally regardless of feed failures and
download failures (which are absorbed by `parse_rss_feed` and the handled
part of `download_episode`). -/
theorem run_ok_of_parsable_max_episodes (env : RunEnv) (force : Bool)
    (hc : env.configExists = true)
    (hcp : env.configParses = true)
    (hmk : ∀ d, env.denv.mkdirOk d = true)
    (hm : ∀ p ∈ get_channels env.cfg, ∃ n, maxEpisodesOf p.2 = Except.ok n) :
    isOkE (download_all_latest env force) = true := by
  have hne : ¬ (true = false) := by decide
  unfold download_all_latest
  rw [hc, hcp, if_neg hne, if_neg hne]
  exact runChannels_ok env force hmk (get_channels env.cfg) _ hm

def okEnvC2 : RunEnv :=
  { configExists := true, configParses := true
    cfg := [("ch", [("url", "http://x/feed"), ("max_episodes", "2")])]
    dedupFileExists := false, dedupFileReadOk := true, dedupFileLines := []
    fetch := fun _ => FetchResult.transportError
    denv := envA }

/-- C2 (witness): the amended theorem on a concrete run whose only channel
has `max_episodes = 2` and whose feed GET fails — the run still completes. -/
theorem run_ok_of_parsable_max_episodes_witness :
    isOkE (download_all_latest okEnvC2 false) = true :=
  run_ok_of_parsable_max_episodes okEnvC2 false rfl rfl (fun _ => rfl)
    (by
      intro p hp
      have hch : get_channels okEnvC2.cfg =
          [("ch", [("url", "http://x/feed"), ("max_episodes", "2")])] := by decide
      rw [hch] at hp
      have hp' := List.mem_singleton.mp hp
      subst hp'
      exact ⟨2, rfl⟩)

end Dirtyget
